import Mathlib

/-!
Verification of the aiDAPTIV KvCache integration.

This file gives a shallow embedding of the two code units under
verification:

* `FolderAllContextProvider.getContextItems` (the folder context aggregator):
  it walks a folder, filters files, reads them under three budgets
  (max file count, max bytes per file, max total bytes) and emits a list of
  context items with bookkeeping markers.  JavaScript strings are modelled as
  Lean `String` (a list of unicode scalars); `new Blob([s]).size` is the UTF-8
  byte count (`blobSize`), while `s.substring(0, n)` and `s.length` count
  characters (`jsSubstring`, `jsLength`) — the source uses both measures and
  they differ on multi-byte text, which matters for several properties.
  The IDE file-system binding is external, so the directory-walk result and
  the per-file read are supplied as parameters (`Except` models a thrown
  JavaScript error).

* `streamBuildKvCacheThunk` (the KvCache chat dispatcher): the part of the
  thunk from message construction onward is embedded as a pure function from
  the compilation response, the live is-streaming flag readings, and the
  streamed chunks to the list of Redux dispatches it performs; a thrown error
  is `Except.error`.
-/

namespace AiDaptiv

/-- A context item as produced by context providers: name, description and
text content. -/
structure ContextItem where
  name : String
  description : String
  content : String
deriving DecidableEq, Repr

/-- UTF-8 byte count of a string, as computed by `new Blob([content]).size`
in the source. -/
def blobSize (s : String) : Nat := (s.data.map Char.utf8Size).sum

/-- JavaScript `content.substring(0, n)`: the first `n` characters. -/
def jsSubstring (s : String) (n : Nat) : String := String.mk (s.data.take n)

/-- JavaScript `s.length`: the character count of a string. -/
def jsLength (s : String) : Nat := s.data.length

/-- JavaScript `Math.round(n / 1024)` for a natural `n`, used by the source
to report kilobyte figures. -/
def roundKB (n : Nat) : Nat := (n + 512) / 1024

/-- The three aggregation budgets.  The source fixes them as module-level
configuration constants (`MAX_FILES`, `MAX_BYTES_PER_FILE`,
`MAX_TOTAL_BYTES`); the embedding passes the configured values explicitly. -/
structure Budget where
  maxFiles : Nat
  maxBytesPerFile : Nat
  maxTotalBytes : Nat

/-- The configured constants of the source: `MAX_FILES = 50`,
`MAX_BYTES_PER_FILE = 100000`, `MAX_TOTAL_BYTES = 2000000`. -/
def sourceBudget : Budget := { maxFiles := 50, maxBytesPerFile := 100000, maxTotalBytes := 2000000 }

/-- The `BINARY_EXTENSIONS` denylist of the source (a JavaScript `Set`). -/
def BINARY_EXTENSIONS : List String :=
  [".png", ".jpg", ".jpeg", ".gif", ".bmp", ".ico", ".svg",
   ".mp4", ".avi", ".mov", ".wmv", ".flv", ".webm",
   ".mp3", ".wav", ".flac", ".aac", ".ogg",
   ".zip", ".rar", ".7z", ".tar", ".gz",
   ".exe", ".dll", ".so", ".dylib",
   ".pdf", ".doc", ".docx", ".xls", ".xlsx", ".ppt", ".pptx",
   ".db", ".sqlite", ".sqlite3",
   ".bin", ".dat", ".log"]

/-- The `IGNORE_DIRS` denylist of the source (a JavaScript `Set`). -/
def IGNORE_DIRS : List String :=
  ["node_modules", ".git", ".svn", ".hg",
   "dist", "build", "out", "target",
   ".vscode", ".idea", ".vs",
   "coverage", ".nyc_output",
   ".next", ".nuxt", ".cache"]

/-- Whether the first character list is a leading segment of the second. -/
def charsPre : List Char → List Char → Bool
  | [], _ => true
  | _ :: _, [] => false
  | a :: as, b :: bs => a == b && charsPre as bs

/-- Whether the first character list occurs contiguously inside the second. -/
def charsWithin (pat : List Char) : List Char → Bool
  | [] => charsPre pat []
  | b :: bs => charsPre pat (b :: bs) || charsWithin pat bs

/-- JavaScript `s.startsWith(pre)`. -/
def jsStarts (s pre : String) : Bool := charsPre pre.data s.data

/-- JavaScript `s.endsWith(post)`. -/
def jsEnds (s post : String) : Bool := charsPre post.data.reverse s.data.reverse

/-- Splitting a character list at every occurrence of a separator character,
with JavaScript `split` semantics (an empty input yields one empty part;
adjacent separators yield empty parts). -/
def splitChar (sep : Char) : List Char → List (List Char)
  | [] => [[]]
  | c :: rest =>
    let r := splitChar sep rest
    if c == sep then [] :: r
    else
      match r with
      | [] => [[c]]
      | h :: t => (c :: h) :: t

/-- JavaScript `uri.split('/')`. -/
def jsSplitSlash (s : String) : List String := (splitChar '/' s.data).map String.mk

/-- Modelled from the spec: `getUriPathBasename` is imported by the provider
from `../../util/uri.js`, whose source is not in the sources at hand; per the
spec the classifier operates on the file name, the last `/`-separated segment
of the URI. -/
def getUriPathBasename (uri : String) : String :=
  (jsSplitSlash uri).getLastD ""

/-- The suffix of a character list starting at its last `.`, if any. -/
def suffixFromLastDot : List Char → Option (List Char)
  | [] => none
  | c :: rest =>
    match suffixFromLastDot rest with
    | some e => some e
    | none => if c = '.' then some (c :: rest) else none

/-- JavaScript `fileName.substring(fileName.lastIndexOf('.'))`: the suffix
from the last dot; when there is no dot, `lastIndexOf` is `-1` and
`substring` clamps it to `0`, returning the whole name. -/
def jsExtensionOf (fileName : String) : String :=
  match suffixFromLastDot fileName.data with
  | some e => String.mk e
  | none => fileName

/-- JavaScript `toLowerCase` (character-wise lowering). -/
def jsToLower (s : String) : String := String.mk (s.data.map Char.toLower)

/-- The per-file predicate of `FolderAllContextProvider.filterFiles`: a file
is kept when no path segment is an ignored directory, its (lower-cased)
extension is not a binary extension, and a name starting with `.` ends in
`.md` or `.txt`. -/
def keepFile (uri : String) : Bool :=
  let fileName := getUriPathBasename uri
  let pathParts := jsSplitSlash uri
  if pathParts.any (fun part => IGNORE_DIRS.contains part) then false
  else
    let extension := jsToLower (jsExtensionOf fileName)
    if BINARY_EXTENSIONS.contains extension then false
    else if jsStarts fileName "." && !(jsEnds fileName ".md") && !(jsEnds fileName ".txt") then
      false
    else true

/-- Source method `FolderAllContextProvider.filterFiles`. -/
def filterFiles (fileUris : List String) : List String := fileUris.filter keepFile

/-- The "No Files Found" item returned when filtering leaves nothing. -/
def noFilesItem : ContextItem :=
  { name := "No Files Found",
    description := "No text files found in the selected folder",
    content := "The selected folder contains no readable text files or all files were filtered out due to size/type restrictions." }

/-- The "Files Limit Reached" marker appended when the processed-file count
has reached `maxFiles`. -/
def filesLimitItem (b : Budget) : ContextItem :=
  { name := "Files Limit Reached",
    description := "Only showing first " ++ toString b.maxFiles ++ " files",
    content := "Maximum file limit of " ++ toString b.maxFiles ++ " reached. Additional files were not included." }

/-- The fixed notice appended to the content of a truncated item. -/
def truncationNotice : String := "\n\n[Content truncated due to size limit]"

/-- The truncated item for a file over the per-file byte cap: the first
`maxBytesPerFile` characters of the content plus the fixed notice. -/
def truncatedItem (b : Budget) (fileUri content : String) (contentBytes : Nat) : ContextItem :=
  { name := getUriPathBasename fileUri,
    description := "File too large (" ++ toString (roundKB contentBytes) ++ "KB) - content truncated",
    content := jsSubstring content b.maxBytesPerFile ++ truncationNotice }

/-- The "Size Limit Reached" marker appended when a file would push the
running total over `maxTotalBytes`. -/
def sizeLimitItem (b : Budget) : ContextItem :=
  { name := "Size Limit Reached",
    description := "Total content size limit reached (" ++ toString (roundKB b.maxTotalBytes) ++ "KB)",
    content := "Maximum total content size of " ++ toString (roundKB b.maxTotalBytes) ++ "KB reached. Additional files were not included." }

/-- The fully-included item for a file within all budgets. -/
def fullItem (fileUri content : String) : ContextItem :=
  { name := getUriPathBasename fileUri,
    description := fileUri,
    content := content }

/-- The error-marker item appended when reading a file throws; it carries the
failure message in its content. -/
def readErrorItem (fileUri errMsg : String) : ContextItem :=
  { name := getUriPathBasename fileUri,
    description := "Error reading file: " ++ fileUri,
    content := "[Error reading file: " ++ errMsg ++ "]" }

/-- The summary item prepended in front of a non-empty result. -/
def summaryItem (selectedFolderUri : String) (processedFiles totalBytes : Nat) : ContextItem :=
  { name := "Folder Summary",
    description := "Contents of " ++ getUriPathBasename selectedFolderUri,
    content := "Loaded " ++ toString processedFiles ++ " files (" ++ toString (roundKB totalBytes) ++ "KB total) from the selected folder." }

/-- The top-level error item produced by the outer `catch` when the directory
walk itself fails. -/
def walkErrorItem (errMsg : String) : ContextItem :=
  { name := "Error",
    description := "Failed to load folder contents",
    content := "Error loading folder contents: " ++ errMsg }

/-- The read loop of `FolderAllContextProvider.getContextItems`: iterates the
filtered files carrying `(contextItems, totalBytes, processedFiles)`.
`readFile` is the IDE binding `extras.ide.readFile`; `Except.error` models a
thrown read error (caught by the inner `catch`).  Returns the produced items
together with the final `totalBytes` and `processedFiles` counters. -/
def readLoop (b : Budget) (readFile : String → Except String String) :
    List String → Nat → Nat → List ContextItem × Nat × Nat
  | [], totalBytes, processedFiles => ([], totalBytes, processedFiles)
  | fileUri :: rest, totalBytes, processedFiles =>
    if processedFiles ≥ b.maxFiles then
      ([filesLimitItem b], totalBytes, processedFiles)
    else
      match readFile fileUri with
      | Except.error e =>
        let r := readLoop b readFile rest totalBytes processedFiles
        (readErrorItem fileUri e :: r.1, r.2)
      | Except.ok content =>
        let contentBytes := blobSize content
        if contentBytes > b.maxBytesPerFile then
          let r := readLoop b readFile rest totalBytes (processedFiles + 1)
          (truncatedItem b fileUri content contentBytes :: r.1, r.2)
        else if totalBytes + contentBytes > b.maxTotalBytes then
          ([sizeLimitItem b], totalBytes, processedFiles)
        else
          let r := readLoop b readFile rest (totalBytes + contentBytes) (processedFiles + 1)
          (fullItem fileUri content :: r.1, r.2)

/-- Source method `FolderAllContextProvider.getContextItems`.  The directory walk
(`walkDir`, an external IDE collaborator) is supplied as `walkResult`;
`Except.error` models a throw, caught by the outer `catch` and turned into a
single error item.  An empty `query` (falsy in JavaScript) returns `[]`. -/
def getContextItems (b : Budget) (readFile : String → Except String String)
    (walkResult : Except String (List String)) (query : String) : List ContextItem :=
  let selectedFolderUri := query
  if selectedFolderUri = "" then []
  else
    match walkResult with
    | Except.error e => [walkErrorItem e]
    | Except.ok fileUris =>
      let filteredFiles := filterFiles fileUris
      if filteredFiles.length = 0 then
        [noFilesItem]
      else
        let r := readLoop b readFile filteredFiles 0 0
        if r.1.length > 0 then summaryItem selectedFolderUri r.2.2 r.2.1 :: r.1 else r.1

/-- Modelled from the spec: the summary ledger the specification describes for the
counters — the sizes of the files that end up fully included (truncated items
and failed reads contribute zero bytes) and the number of files counted as
processed (full and truncated items; failed reads are not counted).  It
follows the aggregation decisions of section 4.2 of the spec and is compared
against the counters `readLoop` actually reports. -/
def summaryLedger (b : Budget) (readFile : String → Except String String) :
    List String → Nat → Nat → List Nat × Nat
  | [], _, _ => ([], 0)
  | fileUri :: rest, totalBytes, processedFiles =>
    if processedFiles ≥ b.maxFiles then ([], 0)
    else
      match readFile fileUri with
      | Except.error _ => summaryLedger b readFile rest totalBytes processedFiles
      | Except.ok content =>
        let contentBytes := blobSize content
        if contentBytes > b.maxBytesPerFile then
          let r := summaryLedger b readFile rest totalBytes (processedFiles + 1)
          (r.1, r.2 + 1)
        else if totalBytes + contentBytes > b.maxTotalBytes then ([], 0)
        else
          let r := summaryLedger b readFile rest (totalBytes + contentBytes) (processedFiles + 1)
          (contentBytes :: r.1, r.2 + 1)

/-- A chat message: role and rendered content. -/
structure ChatMessage where
  role : String
  content : String
deriving DecidableEq

/-- A history entry as used by the thunk: a message with its attached context
items (the `minimalHistory` entries of `streamBuildKvCache.ts`). -/
structure HistoryEntry where
  message : ChatMessage
  contextItems : List ContextItem
deriving DecidableEq

/-- Modelled from the spec: the inline rendering of the context items attached to a turn
(spec 4.3, "the synthetic user turn with its attached context items
rendered inline"); the rendering function itself is not in the sources at
hand. -/
def renderContextItems (items : List ContextItem) : String :=
  String.join (items.map (fun i => i.content ++ "\n"))

/-- Modelled from the spec: how one history entry becomes a chat message,
its context items rendered inline ahead of its text. -/
def renderTurn (e : HistoryEntry) : ChatMessage :=
  { role := e.message.role, content := renderContextItems e.contextItems ++ e.message.content }

/-- Modelled from the spec: `constructMessages` is imported by the thunk from
`../util/constructMessages` and its source is not in the sources at hand; per
spec 4.3 it produces the system message first, then each given history turn
with its context items rendered inline (rule configuration folds into the
system message). -/
def constructMessages (history : List HistoryEntry) (baseSystemMessage : String)
    (rules : List String) : List ChatMessage :=
  { role := "system", content := baseSystemMessage ++ String.join rules } :: history.map renderTurn

/-- The `minimalHistory` literal of `streamBuildKvCache.ts`: a single
synthetic user turn holding the current prompt and its context items. -/
def minimalHistory (content : String) (selectedContextItems : List ContextItem) :
    List HistoryEntry :=
  [{ message := { role := "user", content := content }, contextItems := selectedContextItems }]

/-- The message list the KvCache-build thunk sends to the model.  The thunk
reads the persisted session history only to compute an insertion index; it
passes `constructMessages` the synthetic `minimalHistory` instead.  The
`sessionHistory` parameter makes that explicit: it is in scope at the call
site but unused by the construction. -/
def streamBuildKvCacheMessages (_sessionHistory : List HistoryEntry) (content : String)
    (selectedContextItems : List ContextItem) (baseSystemMessage : String)
    (rules : List String) : List ChatMessage :=
  constructMessages (minimalHistory content selectedContextItems) baseSystemMessage rules

/-- The Redux dispatches the embedded part of the thunk can perform. -/
inductive Action where
  | setActive
  | setInlineError (msg : Option String)
  | setIsPruned (didPrune : Bool)
  | setContextPercentage (percentage : Nat)
  | streamUpdate (chunk : String)
  | abortStream
  | addPromptCompletionPair
  | postDevDataLog
  | setInactive
deriving DecidableEq

/-- The successful payload of the `llm/compileChat` round trip. -/
structure CompiledContent where
  compiledChatMessages : List ChatMessage
  didPrune : Bool
  contextPercentage : Nat
deriving DecidableEq

/-- The tagged `llm/compileChat` response: `status: ok` with content, or
`status: error` with a message. -/
inductive CompileResult where
  | ok (content : CompiledContent)
  | error (msg : String)

/-- JavaScript `s.includes(pat)`: substring containment. -/
def strIncludes (s pat : String) : Bool := charsWithin pat.data s.data

/-- The streaming `while` loop of the thunk: before relaying each streamed
chunk it re-reads the live `session.isStreaming` flag (modelled as the
sequence of readings `isStreaming`, indexed by how many chunks have been
consumed); a cleared flag dispatches `abortStream` and breaks.  Returns the
dispatches performed and whether the loop broke early. -/
def consumeStream (isStreaming : Nat → Bool) : List String → Nat → List Action × Bool
  | [], _ => ([], false)
  | chunk :: rest, i =>
    if !(isStreaming i) then ([Action.abortStream], true)
    else
      let r := consumeStream isStreaming rest (i + 1)
      (Action.streamUpdate chunk :: r.1, r.2)

/-- The thunk from `dispatch(setActive())` onward, as a pure function of the
compilation response, the is-streaming flag readings, the streamed chunks and
the terminal value of the generator (the prompt/completion record, when present).
Returns the ordered dispatches, or `Except.error` when the thunk throws.  On
a compilation error containing the "Not enough context" signal it dispatches
the distinguished inline error state and returns; any other compilation error
is thrown.  After an unbroken stream with a terminal value it records the
prompt/completion pair and posts best-effort telemetry (whose own failure the
source swallows). -/
def dispatchFromCompile (res : CompileResult) (isStreaming : Nat → Bool)
    (chunks : List String) (finalValue : Option (String × String)) :
    Except String (List Action) :=
  let pre : List Action := [Action.setActive, Action.setInlineError none]
  match res with
  | CompileResult.error msg =>
    if strIncludes msg "Not enough context" then
      Except.ok (pre ++ [Action.setInlineError (some "out-of-context"), Action.setInactive])
    else
      Except.error msg
  | CompileResult.ok cc =>
    let r := consumeStream isStreaming chunks 0
    let logActs : List Action :=
      if r.2 then []
      else
        match finalValue with
        | some _ => [Action.addPromptCompletionPair, Action.postDevDataLog]
        | none => []
    Except.ok (pre ++
      [Action.setIsPruned cc.didPrune, Action.setContextPercentage cc.contextPercentage] ++
      r.1 ++ logActs ++ [Action.setInactive])

/-- A 2.5 MB ASCII file content: 2500000 bytes, over both the per-file cap
(100000) and the total cap (2000000) of the source configuration. -/
def hugeAscii : String := String.mk (List.replicate 2500000 'a')

/-- A read oracle serving the huge file at `big.txt` and a 2-byte file
everywhere else. -/
def bigThenSmallRead : String → Except String String
  | "big.txt" => Except.ok hugeAscii
  | _ => Except.ok "hi"

/-- A read oracle on which every read fails. -/
def alwaysFailRead : String → Except String String := fun _ => Except.error "disk failure"

/-- A 40000-character CJK file content: every character is 3 UTF-8 bytes, so
its byte size is 120000 (over the 100000-byte per-file cap) while its
character count stays under the cap. -/
def cjkContent : String := String.mk (List.replicate 40000 '中')

/-- A read oracle always serving `cjkContent`. -/
def cjkRead : String → Except String String := fun _ => Except.ok cjkContent

/-- A small budget used to instantiate budget-parametric theorems:
at most 1 file, 2 bytes per file, 10 bytes total. -/
def tinyBudget : Budget := { maxFiles := 1, maxBytesPerFile := 2, maxTotalBytes := 10 }

/-- A read oracle always serving a 3-byte file. -/
def threeByteRead : String → Except String String := fun _ => Except.ok "xyz"

/-- A read oracle always serving a 2-byte file. -/
def twoByteRead : String → Except String String := fun _ => Except.ok "ab"

/-- Content of the oracle `threeByteRead`, for file-cap witnesses. -/
def threeByteContent : String → String := fun _ => "xyz"

/-- Flag readings that are live for the first reading only: the stream flag
is cleared between the first and second streamed unit. -/
def liveThenCleared : Nat → Bool := fun i => i == 0

/-- Flag readings that never clear. -/
def alwaysLive : Nat → Bool := fun _ => true

/-- A concrete compilation payload for dispatcher witnesses. -/
def sampleCompiled : CompiledContent :=
  { compiledChatMessages := [], didPrune := false, contextPercentage := 42 }

/-! Helper lemmas: single-step unfoldings of the loops, and byte counts of
replicated contents. -/

theorem readLoop_nil (b : Budget) (rf : String → Except String String) (tb pc : Nat) :
    readLoop b rf [] tb pc = ([], tb, pc) := rfl

theorem readLoop_limit (b : Budget) (rf : String → Except String String)
    (f : String) (rest : List String) (tb pc : Nat) (h : pc ≥ b.maxFiles) :
    readLoop b rf (f :: rest) tb pc = ([filesLimitItem b], tb, pc) := by
  simp only [readLoop]
  rw [if_pos h]

theorem readLoop_err (b : Budget) (rf : String → Except String String)
    (f e : String) (rest : List String) (tb pc : Nat)
    (h : pc < b.maxFiles) (he : rf f = Except.error e) :
    readLoop b rf (f :: rest) tb pc =
      (readErrorItem f e :: (readLoop b rf rest tb pc).1, (readLoop b rf rest tb pc).2) := by
  simp only [readLoop]
  rw [if_neg (Nat.not_le.mpr h), he]

theorem readLoop_trunc (b : Budget) (rf : String → Except String String)
    (f c : String) (rest : List String) (tb pc : Nat)
    (h : pc < b.maxFiles) (hc : rf f = Except.ok c) (hb : blobSize c > b.maxBytesPerFile) :
    readLoop b rf (f :: rest) tb pc =
      (truncatedItem b f c (blobSize c) :: (readLoop b rf rest tb (pc + 1)).1,
        (readLoop b rf rest tb (pc + 1)).2) := by
  simp only [readLoop]
  rw [if_neg (Nat.not_le.mpr h), hc]
  simp only [if_pos hb]

theorem readLoop_sizeCap (b : Budget) (rf : String → Except String String)
    (f c : String) (rest : List String) (tb pc : Nat)
    (h : pc < b.maxFiles) (hc : rf f = Except.ok c) (hb : ¬ blobSize c > b.maxBytesPerFile)
    (ht : tb + blobSize c > b.maxTotalBytes) :
    readLoop b rf (f :: rest) tb pc = ([sizeLimitItem b], tb, pc) := by
  simp only [readLoop]
  rw [if_neg (Nat.not_le.mpr h), hc]
  simp only [if_neg hb, if_pos ht]

theorem readLoop_full (b : Budget) (rf : String → Except String String)
    (f c : String) (rest : List String) (tb pc : Nat)
    (h : pc < b.maxFiles) (hc : rf f = Except.ok c) (hb : ¬ blobSize c > b.maxBytesPerFile)
    (ht : ¬ tb + blobSize c > b.maxTotalBytes) :
    readLoop b rf (f :: rest) tb pc =
      (fullItem f c :: (readLoop b rf rest (tb + blobSize c) (pc + 1)).1,
        (readLoop b rf rest (tb + blobSize c) (pc + 1)).2) := by
  simp only [readLoop]
  rw [if_neg (Nat.not_le.mpr h), hc]
  simp only [if_neg hb, if_neg ht]

theorem readLoop_cons_ne_nil (b : Budget) (rf : String → Except String String)
    (f : String) (rest : List String) (tb pc : Nat) :
    (readLoop b rf (f :: rest) tb pc).1 ≠ [] := by
  by_cases h : pc ≥ b.maxFiles
  · rw [readLoop_limit b rf f rest tb pc h]
    simp
  · have h' : pc < b.maxFiles := Nat.lt_of_not_le h
    cases he : rf f with
    | error e =>
      rw [readLoop_err b rf f e rest tb pc h' he]
      simp
    | ok c =>
      by_cases hb : blobSize c > b.maxBytesPerFile
      · rw [readLoop_trunc b rf f c rest tb pc h' he hb]
        simp
      · by_cases ht : tb + blobSize c > b.maxTotalBytes
        · rw [readLoop_sizeCap b rf f c rest tb pc h' he hb ht]
          simp
        · rw [readLoop_full b rf f c rest tb pc h' he hb ht]
          simp

theorem blobSize_replicate (n : Nat) (c : Char) :
    blobSize (String.mk (List.replicate n c)) = n * c.utf8Size := by
  simp [blobSize, List.map_replicate, List.sum_const_nat]

theorem readLoop_totalBytes_le (b : Budget) (rf : String → Except String String) :
    ∀ (files : List String) (tb pc : Nat), tb ≤ b.maxTotalBytes →
      (readLoop b rf files tb pc).2.1 ≤ b.maxTotalBytes := by
  intro files
  induction files with
  | nil => intro tb pc h; simpa [readLoop_nil] using h
  | cons f rest ih =>
    intro tb pc h
    by_cases hpc : pc ≥ b.maxFiles
    · rw [readLoop_limit b rf f rest tb pc hpc]
      simpa using h
    · have hpc' : pc < b.maxFiles := Nat.lt_of_not_le hpc
      cases he : rf f with
      | error e =>
        rw [readLoop_err b rf f e rest tb pc hpc' he]
        simpa using ih tb pc h
      | ok c =>
        by_cases hb : blobSize c > b.maxBytesPerFile
        · rw [readLoop_trunc b rf f c rest tb pc hpc' he hb]
          simpa using ih tb (pc + 1) h
        · by_cases ht : tb + blobSize c > b.maxTotalBytes
          · rw [readLoop_sizeCap b rf f c rest tb pc hpc' he hb ht]
            simpa using h
          · rw [readLoop_full b rf f c rest tb pc hpc' he hb ht]
            simpa using ih (tb + blobSize c) (pc + 1) (Nat.not_lt.mp ht)

theorem summaryLedger_nil (b : Budget) (rf : String → Except String String) (tb pc : Nat) :
    summaryLedger b rf [] tb pc = ([], 0) := rfl

theorem summaryLedger_limit (b : Budget) (rf : String → Except String String)
    (f : String) (rest : List String) (tb pc : Nat) (h : pc ≥ b.maxFiles) :
    summaryLedger b rf (f :: rest) tb pc = ([], 0) := by
  simp only [summaryLedger]
  rw [if_pos h]

theorem summaryLedger_err (b : Budget) (rf : String → Except String String)
    (f e : String) (rest : List String) (tb pc : Nat)
    (h : pc < b.maxFiles) (he : rf f = Except.error e) :
    summaryLedger b rf (f :: rest) tb pc = summaryLedger b rf rest tb pc := by
  simp only [summaryLedger]
  rw [if_neg (Nat.not_le.mpr h), he]

theorem summaryLedger_trunc (b : Budget) (rf : String → Except String String)
    (f c : String) (rest : List String) (tb pc : Nat)
    (h : pc < b.maxFiles) (hc : rf f = Except.ok c) (hb : blobSize c > b.maxBytesPerFile) :
    summaryLedger b rf (f :: rest) tb pc =
      ((summaryLedger b rf rest tb (pc + 1)).1, (summaryLedger b rf rest tb (pc + 1)).2 + 1) := by
  simp only [summaryLedger]
  rw [if_neg (Nat.not_le.mpr h), hc]
  simp only [if_pos hb]

theorem summaryLedger_sizeCap (b : Budget) (rf : String → Except String String)
    (f c : String) (rest : List String) (tb pc : Nat)
    (h : pc < b.maxFiles) (hc : rf f = Except.ok c) (hb : ¬ blobSize c > b.maxBytesPerFile)
    (ht : tb + blobSize c > b.maxTotalBytes) :
    summaryLedger b rf (f :: rest) tb pc = ([], 0) := by
  simp only [summaryLedger]
  rw [if_neg (Nat.not_le.mpr h), hc]
  simp only [if_neg hb, if_pos ht]

theorem summaryLedger_full (b : Budget) (rf : String → Except String String)
    (f c : String) (rest : List String) (tb pc : Nat)
    (h : pc < b.maxFiles) (hc : rf f = Except.ok c) (hb : ¬ blobSize c > b.maxBytesPerFile)
    (ht : ¬ tb + blobSize c > b.maxTotalBytes) :
    summaryLedger b rf (f :: rest) tb pc =
      (blobSize c :: (summaryLedger b rf rest (tb + blobSize c) (pc + 1)).1,
        (summaryLedger b rf rest (tb + blobSize c) (pc + 1)).2 + 1) := by
  simp only [summaryLedger]
  rw [if_neg (Nat.not_le.mpr h), hc]
  simp only [if_neg hb, if_neg ht]

theorem readLoop_matches_ledger (b : Budget) (rf : String → Except String String) :
    ∀ (files : List String) (tb pc : Nat),
      (readLoop b rf files tb pc).2.1 = tb + (summaryLedger b rf files tb pc).1.sum ∧
      (readLoop b rf files tb pc).2.2 = pc + (summaryLedger b rf files tb pc).2 := by
  intro files
  induction files with
  | nil => intro tb pc; simp [readLoop_nil, summaryLedger_nil]
  | cons f rest ih =>
    intro tb pc
    by_cases hpc : pc ≥ b.maxFiles
    · rw [readLoop_limit b rf f rest tb pc hpc, summaryLedger_limit b rf f rest tb pc hpc]
      simp
    · have hpc' : pc < b.maxFiles := Nat.lt_of_not_le hpc
      cases he : rf f with
      | error e =>
        rw [readLoop_err b rf f e rest tb pc hpc' he, summaryLedger_err b rf f e rest tb pc hpc' he]
        simpa using ih tb pc
      | ok c =>
        by_cases hb : blobSize c > b.maxBytesPerFile
        · rw [readLoop_trunc b rf f c rest tb pc hpc' he hb,
            summaryLedger_trunc b rf f c rest tb pc hpc' he hb]
          have := ih tb (pc + 1)
          constructor
          · simpa using this.1
          · simp only []
            rw [this.2]
            omega
        · by_cases ht : tb + blobSize c > b.maxTotalBytes
          · rw [readLoop_sizeCap b rf f c rest tb pc hpc' he hb ht,
              summaryLedger_sizeCap b rf f c rest tb pc hpc' he hb ht]
            simp
          · rw [readLoop_full b rf f c rest tb pc hpc' he hb ht,
              summaryLedger_full b rf f c rest tb pc hpc' he hb ht]
            have := ih (tb + blobSize c) (pc + 1)
            constructor
            · simp only [List.sum_cons]
              rw [this.1]
              omega
            · simp only []
              rw [this.2]
              omega

theorem consumeStream_break (flags : Nat → Bool) :
    ∀ (chunks : List String) (j i : Nat), j < chunks.length →
      (∀ k, k < j → flags (i + k) = true) → flags (i + j) = false →
      consumeStream flags chunks i =
        ((chunks.take j).map Action.streamUpdate ++ [Action.abortStream], true) := by
  intro chunks
  induction chunks with
  | nil => intro j i hj _ _; exact absurd hj (by simp)
  | cons chunk rest ih =>
    intro j i hj hbef hat
    cases j with
    | zero =>
      have h0 : flags i = false := by simpa using hat
      simp only [consumeStream, h0]
      simp
    | succ j' =>
      have hlive : flags i = true := by simpa using hbef 0 (Nat.succ_pos j')
      have hrec := ih j' (i + 1) (by simpa using Nat.lt_of_succ_lt_succ hj)
        (fun k hk => by
          have := hbef (k + 1) (Nat.succ_lt_succ hk)
          simpa [Nat.add_assoc, Nat.add_comm 1 k] using this)
        (by
          have : i + 1 + j' = i + (j' + 1) := by omega
          rw [this]
          exact hat)
      simp only [consumeStream, hlive]
      rw [hrec]
      simp

theorem readLoop_replicate_err (b : Budget) (rf : String → Except String String)
    (f e : String) (he : rf f = Except.error e) :
    ∀ (n tb pc : Nat), pc < b.maxFiles →
      readLoop b rf (List.replicate n f) tb pc =
        (List.replicate n (readErrorItem f e), tb, pc) := by
  intro n
  induction n with
  | zero => intro tb pc _; simp [readLoop_nil]
  | succ n ih =>
    intro tb pc hpc
    rw [List.replicate_succ, readLoop_err b rf f e (List.replicate n f) tb pc hpc he,
      ih tb pc hpc]
    simp [List.replicate_succ]

theorem readLoop_allTrunc (b : Budget) (rf : String → Except String String) (g : String → String) :
    ∀ (files : List String) (tb pc : Nat),
      (∀ f ∈ files, rf f = Except.ok (g f) ∧ blobSize (g f) > b.maxBytesPerFile) →
      pc ≤ b.maxFiles → b.maxFiles < pc + files.length →
      readLoop b rf files tb pc =
        ((files.take (b.maxFiles - pc)).map (fun f => truncatedItem b f (g f) (blobSize (g f)))
            ++ [filesLimitItem b], tb, b.maxFiles) := by
  intro files
  induction files with
  | nil => intro tb pc _ hle hlt; exact absurd hlt (by simpa using hle)
  | cons f rest ih =>
    intro tb pc hg hle hlt
    by_cases hpc : pc ≥ b.maxFiles
    · have hpceq : pc = b.maxFiles := Nat.le_antisymm hle hpc
      rw [readLoop_limit b rf f rest tb pc hpc]
      simp [hpceq]
    · have hpc' : pc < b.maxFiles := Nat.lt_of_not_le hpc
      have hf := hg f (List.mem_cons_self f rest)
      rw [readLoop_trunc b rf f (g f) rest tb pc hpc' hf.1 hf.2]
      rw [ih tb (pc + 1) (fun x hx => hg x (List.mem_cons_of_mem f hx)) hpc' (by simpa [Nat.add_comm, Nat.add_assoc, Nat.add_left_comm] using hlt)]
      obtain ⟨k, hk⟩ : ∃ k, b.maxFiles - pc = k + 1 := ⟨b.maxFiles - (pc + 1), by omega⟩
      have hk' : b.maxFiles - (pc + 1) = k := by omega
      rw [hk, hk', List.take_succ_cons]
      simp

theorem getContextItems_with_files (b : Budget) (rf : String → Except String String)
    (l : List String) (q : String) (hq : q ≠ "") (hl : filterFiles l ≠ []) :
    getContextItems b rf (Except.ok l) q =
      summaryItem q (readLoop b rf (filterFiles l) 0 0).2.2 (readLoop b rf (filterFiles l) 0 0).2.1
        :: (readLoop b rf (filterFiles l) 0 0).1 := by
  obtain ⟨f, rest, hfr⟩ : ∃ f rest, filterFiles l = f :: rest := by
    cases hfl : filterFiles l with
    | nil => exact absurd hfl hl
    | cons f rest => exact ⟨f, rest, rfl⟩
  have hpos : 0 < (readLoop b rf (filterFiles l) 0 0).1.length := by
    rw [hfr]
    exact List.length_pos.mpr (readLoop_cons_ne_nil b rf f rest 0 0)
  simp only [getContextItems, if_neg hq]
  rw [if_neg (by rw [hfr]; simp)]
  rw [if_pos hpos]

theorem getContextItems_empty_query (b : Budget) (rf : String → Except String String)
    (walkResult : Except String (List String)) :
    getContextItems b rf walkResult "" = [] := by
  simp [getContextItems]

theorem getContextItems_walk_error (b : Budget) (rf : String → Except String String)
    (e q : String) (hq : q ≠ "") :
    getContextItems b rf (Except.error e) q = [walkErrorItem e] := by
  simp only [getContextItems, if_neg hq]

theorem getContextItems_no_files (b : Budget) (rf : String → Except String String)
    (l : List String) (q : String) (hq : q ≠ "") (hl : filterFiles l = []) :
    getContextItems b rf (Except.ok l) q = [noFilesItem] := by
  simp only [getContextItems, if_neg hq]
  rw [if_pos (by rw [hl]; rfl)]

theorem charsPre_self_append : ∀ (p l : List Char), charsPre p (p ++ l) = true := by
  intro p
  induction p with
  | nil => intro l; rfl
  | cons a as ih =>
    intro l
    simp [charsPre, ih l]

theorem charsWithin_nil_pat : ∀ (l : List Char), charsWithin [] l = true := by
  intro l
  cases l <;> simp [charsWithin, charsPre]

theorem charsWithin_of_surround : ∀ (l p m : List Char), charsWithin p (l ++ (p ++ m)) = true := by
  intro l
  induction l with
  | nil =>
    intro p m
    cases p with
    | nil => simpa using charsWithin_nil_pat m
    | cons x xs =>
      have h := charsPre_self_append (x :: xs) m
      simp only [List.nil_append, List.cons_append, charsWithin] at *
      simp [h]
  | cons a l2 ih =>
    intro p m
    simp only [List.cons_append, charsWithin, List.append_eq]
    simp [ih p m]


/-! The verified properties. -/

/-- C1: for every invocation of the KvCache-build dispatch, the message list
sent to the model is the base system message followed by exactly one user
turn built from the current prompt and its context items; entries of the
persisted session history never appear in it, for every possible session
history (the construction is independent of the `sessionHistory` argument). -/
theorem kvcache_messages_without_history (sessionHistory otherHistory : List HistoryEntry)
    (content : String) (items : List ContextItem) (base : String) (rules : List String) :
    streamBuildKvCacheMessages sessionHistory content items base rules =
      [{ role := "system", content := base ++ String.join rules },
       { role := "user", content := renderContextItems items ++ content }]
    ∧ (streamBuildKvCacheMessages sessionHistory content items base rules).length = 2
    ∧ streamBuildKvCacheMessages sessionHistory content items base rules =
        streamBuildKvCacheMessages otherHistory content items base rules :=
  ⟨rfl, rfl, rfl⟩

/-- C5: if compilation returns an error whose message contains the
"Not enough context" signal, the dispatcher dispatches the distinguished
`out-of-context` inline error state plus `setInactive` and returns normally;
any other compilation error is thrown, failing the invocation. -/
theorem dispatch_compile_error_handling (flags : Nat → Bool) (chunks : List String)
    (finalValue : Option (String × String)) (msg : String) :
    (strIncludes msg "Not enough context" = true →
      dispatchFromCompile (CompileResult.error msg) flags chunks finalValue =
        Except.ok [Action.setActive, Action.setInlineError none,
          Action.setInlineError (some "out-of-context"), Action.setInactive])
    ∧ (strIncludes msg "Not enough context" = false →
      dispatchFromCompile (CompileResult.error msg) flags chunks finalValue =
        Except.error msg) := by
  constructor
  · intro h
    simp [dispatchFromCompile, h]
  · intro h
    simp [dispatchFromCompile, h]

theorem dispatch_compile_error_handling_witness :
    strIncludes "Not enough context for this request" "Not enough context" = true
    ∧ dispatchFromCompile (CompileResult.error "Not enough context for this request")
        alwaysLive [] none =
      Except.ok [Action.setActive, Action.setInlineError none,
        Action.setInlineError (some "out-of-context"), Action.setInactive] :=
  ⟨by decide,
    (dispatch_compile_error_handling alwaysLive [] none
      "Not enough context for this request").1 (by decide)⟩

/-- C6: if the is-streaming flag is cleared between two units of the
incremental sequence (live for the first `j` readings, cleared at reading
`j` with units remaining), the dispatcher relays exactly the first `j` units,
dispatches `abortStream`, performs no stream update after the clearing, does
not consume the remaining units, and exits with a non-error outcome. -/
theorem dispatch_cancelled_mid_stream (flags : Nat → Bool) (chunks : List String)
    (cc : CompiledContent) (finalValue : Option (String × String)) (j : Nat)
    (hj : j < chunks.length) (hbef : ∀ k, k < j → flags k = true) (hat : flags j = false) :
    dispatchFromCompile (CompileResult.ok cc) flags chunks finalValue =
      Except.ok ([Action.setActive, Action.setInlineError none,
        Action.setIsPruned cc.didPrune, Action.setContextPercentage cc.contextPercentage] ++
        (chunks.take j).map Action.streamUpdate ++ [Action.abortStream, Action.setInactive]) := by
  have hcs := consumeStream_break flags chunks j 0 hj
    (fun k hk => by simpa using hbef k hk) (by simpa using hat)
  simp only [dispatchFromCompile, hcs]
  simp

theorem dispatch_cancelled_mid_stream_witness :
    (1 < (["x", "y"] : List String).length ∧ liveThenCleared 0 = true
      ∧ liveThenCleared 1 = false)
    ∧ dispatchFromCompile (CompileResult.ok sampleCompiled) liveThenCleared ["x", "y"] none =
      Except.ok [Action.setActive, Action.setInlineError none,
        Action.setIsPruned false, Action.setContextPercentage 42,
        Action.streamUpdate "x", Action.abortStream, Action.setInactive] :=
  ⟨⟨by decide, by decide, by decide⟩, by
    have h := dispatch_cancelled_mid_stream liveThenCleared ["x", "y"] sampleCompiled none 1
      (by decide) (by decide) (by decide)
    simpa [sampleCompiled] using h⟩

/-- C7: for an empty eligible-file list (after filtering), the aggregator
returns exactly one item, and that item states that no files were found. -/
theorem aggregator_no_files (b : Budget) (rf : String → Except String String)
    (l : List String) (q : String) (hq : q ≠ "") (hl : filterFiles l = []) :
    getContextItems b rf (Except.ok l) q = [noFilesItem]
    ∧ (getContextItems b rf (Except.ok l) q).length = 1 := by
  have h := getContextItems_no_files b rf l q hq hl
  exact ⟨h, by rw [h]; rfl⟩

theorem aggregator_no_files_witness :
    ("q" ≠ "" ∧ filterFiles ([] : List String) = [])
    ∧ getContextItems sourceBudget alwaysFailRead (Except.ok []) "q" = [noFilesItem] :=
  ⟨⟨by decide, rfl⟩,
    (aggregator_no_files sourceBudget alwaysFailRead [] "q" (by decide) rfl).1⟩

/-- C8: when reading a file fails during aggregation, one error-marker item
carrying the failure message is appended, and aggregation continues with the
remaining files unchanged (same running counters); the failure is captured in
the returned items, never thrown, and never aborts the whole aggregation. -/
theorem aggregator_read_error_continues (b : Budget) (rf : String → Except String String)
    (f e : String) (rest : List String) (tb pc : Nat)
    (hpc : pc < b.maxFiles) (he : rf f = Except.error e) :
    readLoop b rf (f :: rest) tb pc =
      (readErrorItem f e :: (readLoop b rf rest tb pc).1, (readLoop b rf rest tb pc).2)
    ∧ strIncludes (readErrorItem f e).content e = true := by
  refine ⟨readLoop_err b rf f e rest tb pc hpc he, ?_⟩
  show charsWithin e.data ("[Error reading file: " ++ e ++ "]").data = true
  rw [String.data_append, String.data_append, List.append_assoc]
  exact charsWithin_of_surround _ e.data _

theorem aggregator_read_error_continues_witness :
    (0 < tinyBudget.maxFiles ∧ alwaysFailRead "a" = Except.error "disk failure")
    ∧ readLoop tinyBudget alwaysFailRead ["a", "b"] 0 0 =
        (readErrorItem "a" "disk failure" :: (readLoop tinyBudget alwaysFailRead ["b"] 0 0).1,
          (readLoop tinyBudget alwaysFailRead ["b"] 0 0).2) :=
  ⟨⟨by decide, rfl⟩,
    (aggregator_read_error_continues tinyBudget alwaysFailRead "a" "disk failure" ["b"] 0 0
      (by decide) rfl).1⟩

/-- C9: the public entry of the aggregator returns an empty item list exactly when
the query (folder URI) is empty; for every non-empty query it returns at
least one item — when the directory walk itself fails, the result is the
single walk-error item. -/
theorem aggregator_empty_iff_empty_query (b : Budget) (rf : String → Except String String)
    (walkResult : Except String (List String)) (q e : String) :
    (getContextItems b rf walkResult q = [] ↔ q = "")
    ∧ (q ≠ "" → walkResult = Except.error e →
        getContextItems b rf walkResult q = [walkErrorItem e]) := by
  constructor
  · constructor
    · intro h
      by_contra hq
      cases walkResult with
      | error e2 =>
        rw [getContextItems_walk_error b rf e2 q hq] at h
        simp at h
      | ok l =>
        by_cases hl : filterFiles l = []
        · rw [getContextItems_no_files b rf l q hq hl] at h
          simp at h
        · rw [getContextItems_with_files b rf l q hq hl] at h
          simp at h
    · intro h
      rw [h]
      exact getContextItems_empty_query b rf walkResult
  · intro hq hw
    rw [hw]
    exact getContextItems_walk_error b rf e q hq

theorem aggregator_empty_iff_empty_query_witness :
    ("q" ≠ "")
    ∧ getContextItems sourceBudget alwaysFailRead (Except.error "boom") "q" = [walkErrorItem "boom"] :=
  ⟨by decide,
    (aggregator_empty_iff_empty_query sourceBudget alwaysFailRead (Except.error "boom")
      "q" "boom").2 (by decide) rfl⟩

/-- C2 (amended): throughout aggregation the running byte total over
fully-included items never exceeds the total-byte cap; and for the first file
whose size is within the per-file cap and whose size added to the running
total would exceed the total cap, no content item is produced, the single
"size limit reached" marker is appended, and aggregation stops.  (As stated
in the claim — without the per-file qualifier — it fails: a file over the
per-file cap bypasses the total check; see the counterexample.)  The first
conjunct quantifies over every reachable loop state `(tb, pc)`, so it is the
claimed invariant at every step. -/
theorem aggregator_total_byte_cap (b : Budget) (rf : String → Except String String)
    (files rest : List String) (f c : String) (tb pc : Nat) :
    (tb ≤ b.maxTotalBytes → (readLoop b rf files tb pc).2.1 ≤ b.maxTotalBytes)
    ∧ (pc < b.maxFiles → rf f = Except.ok c → blobSize c ≤ b.maxBytesPerFile →
        tb + blobSize c > b.maxTotalBytes →
        readLoop b rf (f :: rest) tb pc = ([sizeLimitItem b], tb, pc)) := by
  constructor
  · exact fun h => readLoop_totalBytes_le b rf files tb pc h
  · intro hpc hc hb ht
    exact readLoop_sizeCap b rf f c rest tb pc hpc hc (Nat.not_lt.mpr hb) ht

theorem aggregator_total_byte_cap_witness :
    (0 < tinyBudget.maxFiles ∧ twoByteRead "doc.txt" = Except.ok "ab"
      ∧ blobSize "ab" ≤ tinyBudget.maxBytesPerFile
      ∧ 9 + blobSize "ab" > tinyBudget.maxTotalBytes)
    ∧ readLoop tinyBudget twoByteRead ["doc.txt"] 9 0 = ([sizeLimitItem tinyBudget], 9, 0) :=
  ⟨⟨by decide, rfl, by decide, by decide⟩,
    (aggregator_total_byte_cap tinyBudget twoByteRead [] [] "doc.txt" "ab" 9 0).2
      (by decide) rfl (by decide) (by decide)⟩

theorem aggregator_total_byte_cap_counterexample :
    blobSize hugeAscii > sourceBudget.maxTotalBytes
    ∧ (getContextItems sourceBudget bigThenSmallRead
          (Except.ok ["big.txt", "small.txt"]) "folder").map ContextItem.name
        = ["Folder Summary", "big.txt", "small.txt"] := by
  have hbig : blobSize hugeAscii = 2500000 := by
    rw [hugeAscii, blobSize_replicate, show Char.utf8Size 'a' = 1 from rfl, Nat.mul_one]
  constructor
  · rw [hbig]; decide
  · have hfilter : filterFiles ["big.txt", "small.txt"] = ["big.txt", "small.txt"] := by decide
    have h1 : readLoop sourceBudget bigThenSmallRead ["big.txt", "small.txt"] 0 0
        = (truncatedItem sourceBudget "big.txt" hugeAscii (blobSize hugeAscii)
            :: (readLoop sourceBudget bigThenSmallRead ["small.txt"] 0 1).1,
          (readLoop sourceBudget bigThenSmallRead ["small.txt"] 0 1).2) :=
      readLoop_trunc sourceBudget bigThenSmallRead "big.txt" hugeAscii ["small.txt"] 0 0
        (by decide) rfl (by rw [hbig]; decide)
    have h2 : readLoop sourceBudget bigThenSmallRead ["small.txt"] 0 1
        = (fullItem "small.txt" "hi"
            :: (readLoop sourceBudget bigThenSmallRead [] (0 + blobSize "hi") 2).1,
          (readLoop sourceBudget bigThenSmallRead [] (0 + blobSize "hi") 2).2) :=
      readLoop_full sourceBudget bigThenSmallRead "small.txt" "hi" [] 0 1
        (by decide) rfl (by decide) (by decide)
    rw [getContextItems_with_files sourceBudget bigThenSmallRead ["big.txt", "small.txt"]
        "folder" (by decide) (by rw [hfilter]; simp)]
    rw [hfilter, h1, h2, readLoop_nil]
    simp only [List.map_cons, List.map_nil]
    decide

theorem aggregator_file_cap (b : Budget) (rf : String → Except String String)
    (g : String → String) (files : List String) (tb : Nat)
    (hg : ∀ f ∈ files, rf f = Except.ok (g f) ∧ blobSize (g f) > b.maxBytesPerFile)
    (hlen : files.length > b.maxFiles) :
    readLoop b rf files tb 0 =
      ((files.take b.maxFiles).map (fun f => truncatedItem b f (g f) (blobSize (g f)))
          ++ [filesLimitItem b], tb, b.maxFiles)
    ∧ (readLoop b rf files tb 0).1.length = b.maxFiles + 1 := by
  have h := readLoop_allTrunc b rf g files tb 0 hg (Nat.zero_le _) (by simpa using hlen)
  rw [Nat.sub_zero] at h
  refine ⟨h, ?_⟩
  rw [h]
  simp [List.length_take, Nat.min_eq_left (Nat.le_of_lt hlen)]

theorem aggregator_file_cap_witness :
    ((["a", "b"] : List String).length > tinyBudget.maxFiles
      ∧ threeByteRead "a" = Except.ok (threeByteContent "a")
      ∧ blobSize (threeByteContent "a") > tinyBudget.maxBytesPerFile)
    ∧ readLoop tinyBudget threeByteRead ["a", "b"] 0 0 =
        ([truncatedItem tinyBudget "a" (threeByteContent "a") (blobSize (threeByteContent "a")),
          filesLimitItem tinyBudget], 0, tinyBudget.maxFiles) :=
  ⟨⟨by decide, rfl, by decide⟩, by
    have h := (aggregator_file_cap tinyBudget threeByteRead threeByteContent ["a", "b"] 0
      (fun f _ => ⟨rfl, (by decide : blobSize "xyz" > tinyBudget.maxBytesPerFile)⟩)
      (by decide)).1
    simpa [tinyBudget] using h⟩

theorem aggregator_file_cap_counterexample :
    (List.replicate 51 "f").length > sourceBudget.maxFiles
    ∧ getContextItems sourceBudget alwaysFailRead (Except.ok (List.replicate 51 "f")) "q"
        = summaryItem "q" 0 0 :: List.replicate 51 (readErrorItem "f" "disk failure")
    ∧ ((getContextItems sourceBudget alwaysFailRead (Except.ok (List.replicate 51 "f")) "q").map
          ContextItem.name).count "Files Limit Reached" = 0 := by
  have hkeep : keepFile "f" = true := by decide
  have hfilter : filterFiles (List.replicate 51 "f") = List.replicate 51 "f" := by
    simp [filterFiles, List.filter_replicate, hkeep]
  have hloop := readLoop_replicate_err sourceBudget alwaysFailRead "f" "disk failure" rfl
    51 0 0 (by decide)
  have hout : getContextItems sourceBudget alwaysFailRead (Except.ok (List.replicate 51 "f")) "q"
      = summaryItem "q" 0 0 :: List.replicate 51 (readErrorItem "f" "disk failure") := by
    rw [getContextItems_with_files sourceBudget alwaysFailRead (List.replicate 51 "f") "q"
        (by decide) (by rw [hfilter]; simp)]
    rw [hfilter, hloop]
  refine ⟨by decide, hout, ?_⟩
  rw [hout]
  decide

/-- C4 (amended): for a file whose byte size exceeds the per-file cap, the
aggregator produces one truncated item, counted as processed (the loop
continues with `processedFiles + 1`); the content of the item is the first
`min(cap, length)` characters of the file plus the fixed truncation notice,
so its character length is `min(cap, length) + |notice|` — never more than
`cap + |notice|`, but equal to it only when the character length reaches the
cap.  (The claimed exact equality fails for multi-byte text, whose byte size
can exceed the cap while its character count stays below it; see the
counterexample.) -/
theorem aggregator_per_file_truncation (b : Budget) (rf : String → Except String String)
    (f c : String) (rest : List String) (tb pc : Nat)
    (hpc : pc < b.maxFiles) (hc : rf f = Except.ok c) (hb : blobSize c > b.maxBytesPerFile) :
    readLoop b rf (f :: rest) tb pc =
      (truncatedItem b f c (blobSize c) :: (readLoop b rf rest tb (pc + 1)).1,
        (readLoop b rf rest tb (pc + 1)).2)
    ∧ jsLength (truncatedItem b f c (blobSize c)).content
        = min b.maxBytesPerFile (jsLength c) + jsLength truncationNotice
    ∧ jsLength (truncatedItem b f c (blobSize c)).content
        ≤ b.maxBytesPerFile + jsLength truncationNotice := by
  have hlen : jsLength (truncatedItem b f c (blobSize c)).content
      = min b.maxBytesPerFile (jsLength c) + jsLength truncationNotice := by
    show jsLength (jsSubstring c b.maxBytesPerFile ++ truncationNotice) = _
    simp [jsLength, jsSubstring, List.length_take]
  refine ⟨readLoop_trunc b rf f c rest tb pc hpc hc hb, hlen, ?_⟩
  rw [hlen]
  exact Nat.add_le_add_right (Nat.min_le_left _ _) _

theorem aggregator_per_file_truncation_witness :
    (0 < tinyBudget.maxFiles ∧ threeByteRead "a" = Except.ok "xyz"
      ∧ blobSize "xyz" > tinyBudget.maxBytesPerFile)
    ∧ readLoop tinyBudget threeByteRead ["a"] 0 0 =
        (truncatedItem tinyBudget "a" "xyz" (blobSize "xyz")
            :: (readLoop tinyBudget threeByteRead [] 0 1).1,
          (readLoop tinyBudget threeByteRead [] 0 1).2) :=
  ⟨⟨by decide, rfl, by decide⟩,
    (aggregator_per_file_truncation tinyBudget threeByteRead "a" "xyz" [] 0 0
      (by decide) rfl (by decide)).1⟩

theorem aggregator_per_file_truncation_counterexample :
    blobSize cjkContent > sourceBudget.maxBytesPerFile
    ∧ getContextItems sourceBudget cjkRead (Except.ok ["doc.txt"]) "q"
        = [summaryItem "q" 1 0,
           truncatedItem sourceBudget "doc.txt" cjkContent (blobSize cjkContent)]
    ∧ jsLength (truncatedItem sourceBudget "doc.txt" cjkContent (blobSize cjkContent)).content
        ≠ sourceBudget.maxBytesPerFile + jsLength truncationNotice := by
  have hcjk : blobSize cjkContent = 120000 := by
    rw [cjkContent, blobSize_replicate, show Char.utf8Size '中' = 3 by decide]
  have hgt : blobSize cjkContent > sourceBudget.maxBytesPerFile := by rw [hcjk]; decide
  refine ⟨hgt, ?_, ?_⟩
  · have h1 : readLoop sourceBudget cjkRead ["doc.txt"] 0 0
        = (truncatedItem sourceBudget "doc.txt" cjkContent (blobSize cjkContent)
            :: (readLoop sourceBudget cjkRead [] 0 1).1,
          (readLoop sourceBudget cjkRead [] 0 1).2) :=
      readLoop_trunc sourceBudget cjkRead "doc.txt" cjkContent [] 0 0 (by decide) rfl hgt
    rw [getContextItems_with_files sourceBudget cjkRead ["doc.txt"] "q" (by decide)
        (by rw [show filterFiles ["doc.txt"] = ["doc.txt"] from by decide]; simp)]
    rw [show filterFiles ["doc.txt"] = ["doc.txt"] from by decide, h1, readLoop_nil]
  · have htake : jsSubstring cjkContent sourceBudget.maxBytesPerFile = cjkContent := by
      rw [cjkContent]
      simp only [jsSubstring, List.take_replicate]
      norm_num [sourceBudget]
    show jsLength (jsSubstring cjkContent sourceBudget.maxBytesPerFile ++ truncationNotice) ≠ _
    rw [htake]
    have hlen : jsLength (cjkContent ++ truncationNotice)
        = 40000 + jsLength truncationNotice := by
      show (cjkContent.data ++ truncationNotice.data).length = _
      rw [List.length_append]
      have h2 : cjkContent.data.length = 40000 := by
        rw [cjkContent]
        exact List.length_replicate 40000 '中'
      rw [h2]
      rfl
    rw [hlen]
    have : sourceBudget.maxBytesPerFile = 100000 := rfl
    omega

/-- C10: the byte total reported in the prepended summary item equals the sum
of the sizes of fully-included files only — truncated items and failed reads
contribute zero bytes — and the processed-file count it reports counts full
and truncated items only, read-failure files not incrementing it (the same
counter is checked against the file-count cap).  `summaryLedger` is the
spec-side ledger of these rules, and the counters the summary is built from
coincide with it. -/
theorem aggregator_summary_counters (b : Budget) (rf : String → Except String String)
    (l : List String) (q : String) (hq : q ≠ "") (hl : filterFiles l ≠ []) :
    getContextItems b rf (Except.ok l) q =
      summaryItem q (readLoop b rf (filterFiles l) 0 0).2.2 (readLoop b rf (filterFiles l) 0 0).2.1
        :: (readLoop b rf (filterFiles l) 0 0).1
    ∧ (readLoop b rf (filterFiles l) 0 0).2.1 = (summaryLedger b rf (filterFiles l) 0 0).1.sum
    ∧ (readLoop b rf (filterFiles l) 0 0).2.2 = (summaryLedger b rf (filterFiles l) 0 0).2 := by
  refine ⟨getContextItems_with_files b rf l q hq hl, ?_, ?_⟩
  · simpa using (readLoop_matches_ledger b rf (filterFiles l) 0 0).1
  · simpa using (readLoop_matches_ledger b rf (filterFiles l) 0 0).2

theorem aggregator_summary_counters_witness :
    ("q" ≠ "" ∧ filterFiles ["a.txt"] ≠ [])
    ∧ getContextItems tinyBudget twoByteRead (Except.ok ["a.txt"]) "q" =
        summaryItem "q" (readLoop tinyBudget twoByteRead (filterFiles ["a.txt"]) 0 0).2.2
            (readLoop tinyBudget twoByteRead (filterFiles ["a.txt"]) 0 0).2.1
          :: (readLoop tinyBudget twoByteRead (filterFiles ["a.txt"]) 0 0).1
    ∧ (readLoop tinyBudget twoByteRead (filterFiles ["a.txt"]) 0 0).2.1
        = (summaryLedger tinyBudget twoByteRead (filterFiles ["a.txt"]) 0 0).1.sum :=
  ⟨⟨by decide, by decide⟩,
    (aggregator_summary_counters tinyBudget twoByteRead ["a.txt"] "q" (by decide) (by decide)).1,
    (aggregator_summary_counters tinyBudget twoByteRead ["a.txt"] "q" (by decide) (by decide)).2.1⟩

end AiDaptiv
